import Mathlib

set_option maxRecDepth 8000

/- Shallow embedding of the Spanish subjunctive analyzer of src/app.py.
   Text is modeled as List Char.  The optional pattern.es library is modeled
   as absent (session state pattern_available = False), so the fallback
   heuristic paths of the program are embedded; those are the only paths the
   analyzed properties concern. -/

/-- Lowercase conversion performed by str.lower, restricted to the ASCII
letters and the Spanish accented letters that occur in the analyzer. -/
def toLowerSp (c : Char) : Char :=
  if decide ('A' ≤ c) && decide (c ≤ 'Z') then Char.ofNat (c.toNat + 32)
  else if c == 'Á' then 'á'
  else if c == 'É' then 'é'
  else if c == 'Í' then 'í'
  else if c == 'Ó' then 'ó'
  else if c == 'Ú' then 'ú'
  else if c == 'Ñ' then 'ñ'
  else if c == 'Ü' then 'ü'
  else c

/-- Membership in the regex character class [a-záéíóúñ] used by the
word pattern of analizar_texto. -/
def letraMin (c : Char) : Bool :=
  (decide ('a' ≤ c) && decide (c ≤ 'z')) ||
    decide (c ∈ [ 'á', 'é', 'í', 'ó', 'ú', 'ñ' ])

/-- Membership in the regex word class (backslash-w): letters, digits and
the underscore, over the alphabet relevant to the program. -/
def wordChar (c : Char) : Bool :=
  letraMin c || (decide ('A' ≤ c) && decide (c ≤ 'Z')) ||
    (decide ('0' ≤ c) && decide (c ≤ '9')) || c == '_' ||
    decide (c ∈ [ 'Á', 'É', 'Í', 'Ó', 'Ú', 'Ñ', 'ü', 'Ü' ])

/-- Cleaning step re.sub(r'[^\w]', '', palabra.lower()) applied by every
classifier of the program: lowercase, then drop the non-word characters. -/
def limpiar (w : List Char) : List Char :=
  (w.map toLowerSp).filter wordChar

/-- Python str.endswith: v ends with the suffix s. -/
def termina (v s : List Char) : Bool :=
  (v.drop (v.length - s.length)) == s

/-- Table verbos_irregulares_subjuntivo of src/app.py (lines 45-71). -/
def verbos_irregulares_subjuntivo : List (List Char) :=
  ([ "sea", "seas", "seamos", "sean",
     "vaya", "vayas", "vayamos", "vayan",
     "haya", "hayas", "hayamos", "hayan",
     "esté", "estés", "estemos", "estén",
     "dé", "des", "demos", "den",
     "sepa", "sepas", "sepamos", "sepan",
     "quepa", "quepas", "quepamos", "quepan",
     "haga", "hagas", "hagamos", "hagan",
     "pueda", "puedas", "podamos", "puedan",
     "quiera", "quieras", "queramos", "quieran",
     "tenga", "tengas", "tengamos", "tengan",
     "venga", "vengas", "vengamos", "vengan",
     "digas", "diga", "digamos", "digan",
     "oyas", "oiga", "oigamos", "oigan",
     "caiga", "caigas", "caigamos", "caigan",
     "traiga", "traigas", "traigamos", "traigan",
     "valga", "valgas", "valgamos", "valgan",
     "salga", "salgas", "salgamos", "salgan",
     "duerma", "duermas", "durmamos", "duerman",
     "muera", "mueras", "muramos", "mueran",
     "sienta", "sientas", "sintamos", "sientan",
     "pida", "pidas", "pidamos", "pidan",
     "cuente", "cuentes", "contemos", "cuenten",
     "vuelva", "vuelvas", "volvamos", "vuelvan",
     "encuentre", "encuentres", "encontremos", "encuentren" ] :
   List String).map String.data

/-- Table conectores_subjuntivo of src/app.py (lines 74-82), in source
order, which is the order the clause extractor consults them. -/
def conectores_subjuntivo : List (List Char) :=
  ([ "que", "cuando", "si", "aunque", "para que", "a fin de que",
     "como si", "a menos que", "con tal de que", "en caso de que",
     "sin que", "antes de que", "ojalá", "espero que", "dudo que",
     "no creo que", "es posible que", "es probable que", "quizás",
     "tal vez", "a no ser que", "salvo que", "excepto que",
     "mientras", "después de que", "hasta que", "en cuanto",
     "siempre que", "por más que", "a pesar de que" ] :
   List String).map String.data

/-- Table subjuntivo_terminaciones of src/app.py (lines 85-96), kept in
source order and with the source's duplicated present endings. -/
def subjuntivo_terminaciones : List (List Char) :=
  ([ "ara", "aras", "áramos", "aran",
     "are", "ares", "áremos", "aren",
     "iera", "ieras", "iéramos", "ieran",
     "iere", "ieres", "iéremos", "ieren",
     "era", "eras", "éramos", "eran",
     "ese", "eses", "ésemos", "esen",
     "a", "as", "amos", "an",
     "e", "es", "emos", "en",
     "a", "as", "amos", "an",
     "se", "ses", "semos", "sen" ] : List String).map String.data

/-- Classifier es_verbo_subjuntivo (src/app.py lines 98-127), pattern.es
being unavailable: irregular table first, then ending match. -/
def es_verbo_subjuntivo (palabra : List Char) : Bool :=
  let pl := limpiar palabra
  if pl.isEmpty then false
  else if verbos_irregulares_subjuntivo.contains pl then true
  else subjuntivo_terminaciones.any (fun t => termina pl t)

/-- Irregular-verb lemma table of obtener_lema_verbal
(src/app.py lines 134-146). -/
def verbos_irregulares_map : List (List Char × List Char) :=
  ([ ("sea", "ser"), ("seas", "ser"), ("seamos", "ser"), ("sean", "ser"),
     ("vaya", "ir"), ("vayas", "ir"), ("vayamos", "ir"), ("vayan", "ir"),
     ("haya", "haber"), ("hayas", "haber"), ("hayamos", "haber"),
     ("hayan", "haber"),
     ("esté", "estar"), ("estés", "estar"), ("estemos", "estar"),
     ("estén", "estar"),
     ("dé", "dar"), ("des", "dar"), ("demos", "dar"), ("den", "dar"),
     ("sepa", "saber"), ("sepas", "saber"), ("sepamos", "saber"),
     ("sepan", "saber"),
     ("haga", "hacer"), ("hagas", "hacer"), ("hagamos", "hacer"),
     ("hagan", "hacer"),
     ("pueda", "poder"), ("puedas", "poder"), ("podamos", "poder"),
     ("puedan", "poder"),
     ("quiera", "querer"), ("quieras", "querer"), ("queramos", "querer"),
     ("quieran", "querer"),
     ("tenga", "tener"), ("tengas", "tener"), ("tengamos", "tener"),
     ("tengan", "tener"),
     ("venga", "venir"), ("vengas", "venir"), ("vengamos", "venir"),
     ("vengan", "venir") ] : List (String × String)).map
    (fun p => (p.1.data, p.2.data))

/-- Ending tuple of the -ar branch of obtener_lema_verbal (line 161). -/
def terminaciones_ar : List (List Char) :=
  ([ "a", "as", "amos", "an", "ara", "aras", "áramos", "aran",
     "are", "ares", "áremos", "aren" ] : List String).map String.data

/-- Ending tuple of the -er branch of obtener_lema_verbal (line 163). -/
def terminaciones_er : List (List Char) :=
  ([ "e", "es", "emos", "en", "era", "eras", "éramos", "eran",
     "ere", "eres", "éremos", "eren" ] : List String).map String.data

/-- Ending tuple of the -ir branch of obtener_lema_verbal (line 165). -/
def terminaciones_ir : List (List Char) :=
  ([ "e", "es", "imos", "en", "iera", "ieras", "iéramos", "ieran",
     "iere", "ieres", "iéremos", "ieren" ] : List String).map String.data

/-- Suffix of the inferred -ar infinitive. -/
def sufAr : List Char := "ar".data

/-- Suffix of the inferred -er infinitive. -/
def sufEr : List Char := "er".data

/-- Suffix of the inferred -ir infinitive. -/
def sufIr : List Char := "ir".data

/-- Lemmatizer obtener_lema_verbal (src/app.py lines 129-168), pattern.es
being unavailable: irregular table, then ending-based stem reduction,
identity on the cleaned word otherwise. -/
def obtener_lema_verbal (palabra : List Char) : List Char :=
  let pl := limpiar palabra
  match verbos_irregulares_map.find? (fun q => q.1 == pl) with
  | some q => q.2
  | none =>
    if terminaciones_ar.any (fun t => termina pl t) then
      (if pl.length > 2 then pl.take (pl.length - 2) else pl) ++ sufAr
    else if terminaciones_er.any (fun t => termina pl t) then
      (if pl.length > 2 then pl.take (pl.length - 2) else pl) ++ sufEr
    else if terminaciones_ir.any (fun t => termina pl t) then
      (if pl.length > 2 then pl.take (pl.length - 2) else pl) ++ sufIr
    else pl

/-- Tense label returned on line 175 of src/app.py. -/
def etiquetaPresente : String := "Presente"

/-- Tense label returned on line 177 of src/app.py. -/
def etiquetaImperfecto : String := "Pretérito imperfecto"

/-- Tense label returned on line 179 of src/app.py. -/
def etiquetaFuturo : String := "Futuro simple"

/-- Tense label returned on line 181 of src/app.py. -/
def etiquetaIndeterminado : String := "Indeterminado"

/-- Ending tuple of the first branch of determinar_tiempo_verbal
(line 174). -/
def terminaciones_presente : List (List Char) :=
  ([ "a", "as", "amos", "an", "e", "es", "emos", "en" ] :
   List String).map String.data

/-- Ending tuple of the second branch of determinar_tiempo_verbal
(line 176). -/
def terminaciones_imperfecto : List (List Char) :=
  ([ "ara", "aras", "áramos", "aran", "iera", "ieras", "iéramos", "ieran",
     "era", "eras", "éramos", "eran", "ese", "eses", "ésemos", "esen" ] :
   List String).map String.data

/-- Ending tuple of the third branch of determinar_tiempo_verbal
(line 178). -/
def terminaciones_futuro : List (List Char) :=
  ([ "are", "ares", "áremos", "aren", "iere", "ieres", "iéremos",
     "ieren" ] : List String).map String.data

/-- Tense classifier determinar_tiempo_verbal (src/app.py lines 170-181).
The branches are checked in source order: present first. -/
def determinar_tiempo_verbal (verbo : List Char) : String :=
  let v := limpiar verbo
  if terminaciones_presente.any (fun t => termina v t) then etiquetaPresente
  else if terminaciones_imperfecto.any (fun t => termina v t) then
    etiquetaImperfecto
  else if terminaciones_futuro.any (fun t => termina v t) then
    etiquetaFuturo
  else etiquetaIndeterminado

/-- Person label of line 188 of src/app.py. -/
def etiqueta1Sg : String := "1ra persona singular"

/-- Person label of line 190 of src/app.py. -/
def etiqueta2Sg : String := "2da persona singular"

/-- Person label of line 192 of src/app.py. -/
def etiqueta3Sg : String := "3ra persona singular"

/-- Person label of line 194 of src/app.py. -/
def etiqueta1Pl : String := "1ra persona plural"

/-- Person label of line 196 of src/app.py. -/
def etiqueta2Pl : String := "2da persona plural"

/-- Person label of line 198 of src/app.py. -/
def etiqueta3Pl : String := "3ra persona plural"

/-- Person label of line 200 of src/app.py. -/
def etiquetaPersonaIndet : String := "Indeterminada"

/-- Ending tuples of determinar_persona, in source order. -/
def terminaciones_1sg : List (List Char) :=
  ([ "o", "a", "e" ] : List String).map String.data

/-- Second-person-singular ending tuple of determinar_persona. -/
def terminaciones_2sg : List (List Char) :=
  ([ "as", "es" ] : List String).map String.data

/-- Third-person-singular ending tuple of determinar_persona. -/
def terminaciones_3sg : List (List Char) :=
  ([ "a", "e" ] : List String).map String.data

/-- First-person-plural ending tuple of determinar_persona. -/
def terminaciones_1pl : List (List Char) :=
  ([ "amos", "emos", "imos" ] : List String).map String.data

/-- Second-person-plural ending tuple of determinar_persona. -/
def terminaciones_2pl : List (List Char) :=
  ([ "áis", "éis", "ís" ] : List String).map String.data

/-- Third-person-plural ending tuple of determinar_persona. -/
def terminaciones_3pl : List (List Char) :=
  ([ "an", "en" ] : List String).map String.data

/-- Person classifier determinar_persona (src/app.py lines 183-200),
branches in source order. -/
def determinar_persona (verbo : List Char) : String :=
  let v := limpiar verbo
  if terminaciones_1sg.any (fun t => termina v t) then etiqueta1Sg
  else if terminaciones_2sg.any (fun t => termina v t) then etiqueta2Sg
  else if terminaciones_3sg.any (fun t => termina v t) then etiqueta3Sg
  else if terminaciones_1pl.any (fun t => termina v t) then etiqueta1Pl
  else if terminaciones_2pl.any (fun t => termina v t) then etiqueta2Pl
  else if terminaciones_3pl.any (fun t => termina v t) then etiqueta3Pl
  else etiquetaPersonaIndet

/-- Sentence-terminal punctuation list of the forward scan of
encontrar_clausula_subjuntivo (line 216), in source order. -/
def puntuaciones : List Char := [ '.', '!', '?', ';' ]

/-- Substring test of Python str.find and str.rfind: the pattern sub
occurs in t starting at index i. -/
def coincideEn (t sub : List Char) (i : Nat) : Bool :=
  (t.drop i).take sub.length == sub

/-- Greatest index n below the bound with p n, scanning downward; this is
the search order of Python str.rfind. -/
def buscarUltimo (p : Nat → Bool) : Nat → Option Nat
  | 0 => none
  | n + 1 => if p n then some n else buscarUltimo p n

/-- Python texto.rfind(sub, a, b): greatest i with a ≤ i, i + |sub| ≤ b
and a match of sub at i; none replaces the -1 failure result. -/
def rfindSub (t sub : List Char) (a b : Nat) : Option Nat :=
  buscarUltimo
    (fun i => decide (a ≤ i) && decide (i + sub.length ≤ b) &&
      coincideEn t sub i) (b + 1)

/-- Least index r with i ≤ r < i + fuel and p r, scanning upward; this is
the search order of Python str.find. -/
def buscarDesde (p : Nat → Bool) : Nat → Nat → Option Nat
  | _, 0 => none
  | i, fuel + 1 => if p i then some i else buscarDesde p (i + 1) fuel

/-- Python texto.find(c, start) for a single character c: least index at
or after start holding c; none replaces the -1 failure result. -/
def findCharFrom (t : List Char) (c : Char) (start : Nat) : Option Nat :=
  buscarDesde (fun i => decide (start ≤ i) && (t[i]? == some c)) 0 t.length

/-- Backward scan of encontrar_clausula_subjuntivo (lines 204-211): the
first connector of conectores_subjuntivo found by rfind inside the
100-character window moves the clause start to its index. -/
def inicioClausula (texto : List Char) (pos : Nat) : Nat :=
  let inicio0 := pos - 100
  match conectores_subjuntivo.findSome?
      (fun con => rfindSub texto con inicio0 pos) with
  | some idx => idx
  | none => inicio0

/-- One step of the forward scan of encontrar_clausula_subjuntivo
(lines 216-220): the nearest occurrence of the mark pu at or after pos,
accepted only when it lies before the current window end fin0. -/
def puntA (texto : List Char) (pos fin0 : Nat) (pu : Char) : Option Nat :=
  match findCharFrom texto pu pos with
  | some idx => if idx < fin0 then some (idx + 1) else none
  | none => none

/-- Forward scan of encontrar_clausula_subjuntivo (lines 213-220): window
end min(len, pos+100), moved to just after the first punctuation mark of
puntuaciones (in list order) whose nearest occurrence falls inside it. -/
def finClausula (texto : List Char) (pos : Nat) : Nat :=
  let fin0 := min texto.length (pos + 100)
  match puntuaciones.findSome? (puntA texto pos fin0) with
  | some f => f
  | none => fin0

/-- Character span [inicio, fin) selected by encontrar_clausula_subjuntivo
before the final strip. -/
def clausulaSpan (texto : List Char) (pos : Nat) : Nat × Nat :=
  (inicioClausula texto pos, finClausula texto pos)

/-- Whitespace class of Python str.strip. -/
def esEspacio (c : Char) : Bool :=
  decide (c ∈ [ ' ', '\t', '\n', '\x0b', '\x0c', '\r' ])

/-- Python str.strip: drop leading and trailing whitespace. -/
def recortar (l : List Char) : List Char :=
  ((l.dropWhile esEspacio).reverse.dropWhile esEspacio).reverse

/-- Clause extractor encontrar_clausula_subjuntivo
(src/app.py lines 202-222). -/
def encontrar_clausula_subjuntivo (texto : List Char) (pos : Nat) :
    List Char :=
  let s := clausulaSpan texto pos
  recortar ((texto.drop s.1).take (s.2 - s.1))

/-- Truth of letraMin on an optional character, false off the end of the
text. -/
def letraMinOpt : Option Char → Bool
  | some c => letraMin c
  | none => false

/-- Truth of wordChar on an optional character, false off the end of the
text. -/
def wordCharOpt : Option Char → Bool
  | some c => wordChar c
  | none => false

/-- Maximal run of [a-záéíóúñ] characters starting at index p. -/
def runAt (t : List Char) (p : Nat) : List Char :=
  (t.drop p).takeWhile letraMin

/-- Index p starts a match of the word pattern
\b[a-záéíóúñ]+\b of analizar_texto: a letter with a word boundary on its
left, whose maximal letter run also has a word boundary on its right. -/
def esInicioPalabra (t : List Char) (p : Nat) : Bool :=
  letraMinOpt t[p]? && (p == 0 || !wordCharOpt t[p - 1]?) &&
    !wordCharOpt t[p + (runAt t p).length]?

/-- The (word, start-offset) pairs produced by re.finditer with the word
pattern of analizar_texto (src/app.py line 231), in left-to-right order. -/
def posicionesPalabras (t : List Char) : List (List Char × Nat) :=
  (List.range t.length).filterMap
    (fun p => if esInicioPalabra t p then some (runAt t p, p) else none)

/-- Occurrence record appended by analizar_texto (src/app.py lines
250-257).  The position field holds the character offset carried by the
formatted Posición string. -/
structure Ocurrencia where
  verbo : List Char
  lema : List Char
  tiempo : String
  persona : String
  clausula : List Char
  posicion : Nat
deriving DecidableEq

/-- Analysis orchestrator analizar_texto (src/app.py lines 224-259): scan
the lowered text for words, keep those es_verbo_subjuntivo accepts, and
build one record per occurrence in scan order. -/
def analizar_texto (texto : List Char) : List Ocurrencia :=
  let lowered := texto.map toLowerSp
  (posicionesPalabras lowered).filterMap
    (fun wp =>
      if es_verbo_subjuntivo wp.1 then
        some ⟨(texto.drop wp.2).take wp.1.length,
              obtener_lema_verbal wp.1,
              determinar_tiempo_verbal wp.1,
              determinar_persona wp.1,
              encontrar_clausula_subjuntivo texto wp.2,
              wp.2⟩
      else none)

/- Helper lemmas about the embedded primitives. -/

/-- Characterization of the endswith test through List.IsSuffix. -/
lemma termina_iff {v s : List Char} : termina v s = true ↔ s <:+ v := by
  unfold termina
  simp only [beq_iff_eq]
  constructor
  · intro h
    exact ⟨v.take (v.length - s.length), by
      conv_rhs => rw [← List.take_append_drop (v.length - s.length) v]
      rw [h]⟩
  · rintro ⟨t, rfl⟩
    rw [List.length_append]
    have h2 : t.length + s.length - s.length = t.length := by omega
    rw [h2, List.drop_left]

/-- Transitivity of the endswith test. -/
lemma termina_trans {v s q : List Char} (h1 : termina v s = true)
    (h2 : termina s q = true) : termina v q = true :=
  termina_iff.mpr ((termina_iff.mp h2).trans (termina_iff.mp h1))

/-- Soundness of the downward scan used for str.rfind. -/
lemma buscarUltimo_some {p : Nat → Bool} :
    ∀ {n r : Nat}, buscarUltimo p n = some r → p r = true ∧ r < n := by
  intro n
  induction n with
  | zero => intro r h; simp [buscarUltimo] at h
  | succ n ih =>
    intro r h
    unfold buscarUltimo at h
    by_cases hp : p n
    · rw [if_pos hp] at h
      injection h with h
      subst h
      exact ⟨hp, Nat.lt_succ_self n⟩
    · rw [if_neg hp] at h
      obtain ⟨h1, h2⟩ := ih h
      exact ⟨h1, Nat.lt_succ_of_lt h2⟩

/-- Soundness and minimality of the upward scan used for str.find. -/
lemma buscarDesde_some {p : Nat → Bool} :
    ∀ (fuel i r : Nat), buscarDesde p i fuel = some r →
      p r = true ∧ i ≤ r ∧ r < i + fuel ∧
        ∀ j, i ≤ j → j < r → p j = false := by
  intro fuel
  induction fuel with
  | zero => intro i r h; simp [buscarDesde] at h
  | succ fuel ih =>
    intro i r h
    unfold buscarDesde at h
    by_cases hp : p i
    · rw [if_pos hp] at h
      injection h with h
      subst h
      exact ⟨hp, Nat.le_refl i, by omega, fun j h1 h2 => absurd h1 (by omega)⟩
    · rw [if_neg hp] at h
      obtain ⟨h1, h2, h3, h4⟩ := ih (i + 1) r h
      refine ⟨h1, by omega, by omega, ?_⟩
      intro j hj1 hj2
      by_cases hj : j = i
      · subst hj; exact Bool.eq_false_iff.mpr hp
      · exact h4 j (by omega) hj2

/-- Completeness of the upward scan used for str.find. -/
lemma buscarDesde_none {p : Nat → Bool} :
    ∀ (fuel i : Nat), buscarDesde p i fuel = none →
      ∀ j, i ≤ j → j < i + fuel → p j = false := by
  intro fuel
  induction fuel with
  | zero => intro i _ j h1 h2; omega
  | succ fuel ih =>
    intro i h j h1 h2
    unfold buscarDesde at h
    by_cases hp : p i
    · rw [if_pos hp] at h; cases h
    · rw [if_neg hp] at h
      by_cases hj : j = i
      · subst hj; exact Bool.eq_false_iff.mpr hp
      · exact ih (i + 1) h j (by omega) (by omega)

/-- Soundness of the embedded texto.find(c, start). -/
lemma findCharFrom_some {t : List Char} {c : Char} {start r : Nat}
    (h : findCharFrom t c start = some r) :
    start ≤ r ∧ r < t.length ∧ t[r]? = some c ∧
      ∀ j, start ≤ j → j < r → t[j]? ≠ some c := by
  obtain ⟨hp, h0, hr, hmin⟩ := buscarDesde_some _ 0 r h
  rw [Bool.and_eq_true] at hp
  refine ⟨of_decide_eq_true hp.1, by omega, by simpa using hp.2, ?_⟩
  intro j hj hjr hc
  have hfalse := hmin j (Nat.zero_le j) hjr
  simp [hj, hc] at hfalse

/-- Completeness of the embedded texto.find(c, start). -/
lemma findCharFrom_none {t : List Char} {c : Char} {start : Nat}
    (h : findCharFrom t c start = none) :
    ∀ j, start ≤ j → t[j]? ≠ some c := by
  intro j hj hc
  have hjlen : j < t.length := by
    by_contra hge
    rw [List.getElem?_eq_none (by omega)] at hc
    cases hc
  have hfalse := buscarDesde_none _ 0 h j (Nat.zero_le j) (by omega)
  simp [hj, hc] at hfalse

/-- The forward-scan step rejects a mark absent from the window. -/
lemma puntA_eq_none {texto : List Char} {pos fin0 : Nat} {pu : Char}
    (h : ∀ j, pos ≤ j → j < fin0 → texto[j]? ≠ some pu) :
    puntA texto pos fin0 pu = none := by
  unfold puntA
  cases e : findCharFrom texto pu pos with
  | none => rfl
  | some idx =>
    obtain ⟨h1, _, h3, _⟩ := findCharFrom_some e
    have hnot : ¬ idx < fin0 := fun hlt => h idx h1 hlt h3
    show (if idx < fin0 then some (idx + 1) else none) = none
    rw [if_neg hnot]

/-- The forward-scan step accepts the least in-window occurrence of a
mark. -/
lemma puntA_eq_some {texto : List Char} {pos fin0 pu : _} {i : Nat}
    (hpi : pos ≤ i) (hif : i < fin0) (hei : texto[i]? = some pu)
    (hmin : ∀ j, pos ≤ j → j < i → texto[j]? ≠ some pu) :
    puntA texto pos fin0 pu = some (i + 1) := by
  unfold puntA
  cases e : findCharFrom texto pu pos with
  | none => exact absurd hei (findCharFrom_none e i hpi)
  | some idx =>
    obtain ⟨h1, _, h3, h4⟩ := findCharFrom_some e
    have hidx : idx = i := by
      rcases Nat.lt_trichotomy idx i with hlt | heq | hgt
      · exact absurd h3 (hmin idx h1 hlt)
      · exact heq
      · exact absurd hei (h4 i hpi hgt)
    subst hidx
    show (if idx < fin0 then some (idx + 1) else none) = some (idx + 1)
    rw [if_pos hif]

/-- Unpacking membership in the word list produced by the scanner. -/
lemma mem_posicionesPalabras {t w : List Char} {p : Nat}
    (h : (w, p) ∈ posicionesPalabras t) :
    w = runAt t p ∧ p < t.length ∧ esInicioPalabra t p = true := by
  unfold posicionesPalabras at h
  rw [List.mem_filterMap] at h
  obtain ⟨a, ha, hfa⟩ := h
  rw [List.mem_range] at ha
  by_cases he : esInicioPalabra t a
  · rw [if_pos he] at hfa
    injection hfa with hfa
    have hw : runAt t a = w := congrArg Prod.fst hfa
    have hp2 : a = p := congrArg Prod.snd hfa
    subst hp2
    exact ⟨hw.symm, ha, he⟩
  · rw [if_neg he] at hfa
    cases hfa

/-- A matched word is a nonempty all-letter run fitting inside the text. -/
lemma palabra_letras {t : List Char} {p : Nat}
    (hini : esInicioPalabra t p = true) :
    runAt t p ≠ [] ∧ p + (runAt t p).length ≤ t.length ∧
      ∀ k, k < (runAt t p).length → letraMinOpt t[p + k]? = true := by
  unfold esInicioPalabra at hini
  rw [Bool.and_eq_true, Bool.and_eq_true] at hini
  have hlm : letraMinOpt t[p]? = true := hini.1.1
  cases hc : t[p]? with
  | none => rw [hc] at hlm; cases hlm
  | some c =>
    rw [hc] at hlm
    have hplen : p < t.length := by
      by_contra hge
      rw [List.getElem?_eq_none (by omega)] at hc
      cases hc
    have hdrop : (t.drop p).head? = some c := by
      rw [List.head?_drop, hc]
    cases e : t.drop p with
    | nil => rw [e] at hdrop; cases hdrop
    | cons d rest =>
      rw [e] at hdrop
      injection hdrop with hdc
      subst hdc
      have hld : letraMin d = true := hlm
      have hne : runAt t p ≠ [] := by
        unfold runAt
        rw [e, List.takeWhile_cons_of_pos hld]
        exact List.cons_ne_nil _ _
      have hsub : ∀ k, k < (runAt t p).length → (runAt t p)[k]? = t[p + k]? := by
        intro k hk
        unfold runAt at hk ⊢
        rw [List.takeWhile_eq_take_findIdx_not] at hk ⊢
        rw [List.length_take] at hk
        rw [List.getElem?_take_of_lt (by omega), List.getElem?_drop]
      have hlen : (runAt t p).length ≤ t.length - p := by
        unfold runAt
        rw [List.takeWhile_eq_take_findIdx_not, List.length_take,
          List.length_drop]
        omega
      refine ⟨hne, by omega, ?_⟩
      intro k hk
      have hk2 := hsub k hk
      cases e2 : (runAt t p)[k]? with
      | none =>
        rw [List.getElem?_eq_none_iff] at e2
        omega
      | some x =>
        have hxmem : x ∈ runAt t p := List.getElem?_mem e2
        have hx : letraMin x = true := List.mem_takeWhile_imp hxmem
        rw [← hk2, e2]
        exact hx

/-- Unpacking membership in the output of the orchestrator. -/
lemma mem_analizar {texto : List Char} {r : Ocurrencia}
    (h : r ∈ analizar_texto texto) :
    ∃ w p, (w, p) ∈ posicionesPalabras (texto.map toLowerSp) ∧
      es_verbo_subjuntivo w = true ∧
      r.verbo = (texto.drop p).take w.length ∧ r.posicion = p := by
  simp only [analizar_texto, List.mem_filterMap] at h
  obtain ⟨wp, hmem, hsome⟩ := h
  by_cases hv : es_verbo_subjuntivo wp.1
  · rw [if_pos hv] at hsome
    injection hsome with hsome
    subst hsome
    exact ⟨wp.1, wp.2, hmem, hv, rfl, rfl⟩
  · rw [if_neg hv] at hsome
    cases hsome

/-- Every ending of the imperfect tuple of determinar_tiempo_verbal itself
ends in an ending of the present tuple. -/
lemma presente_en_imperfecto :
    ∀ s ∈ terminaciones_imperfecto,
      ∃ q ∈ terminaciones_presente, termina s q = true := by decide

/-- Every ending of the future tuple of determinar_tiempo_verbal itself
ends in an ending of the present tuple. -/
lemma presente_en_futuro :
    ∀ s ∈ terminaciones_futuro,
      ∃ q ∈ terminaciones_presente, termina s q = true := by decide

/-- A word passing the imperfect ending check also passes the present
ending check. -/
lemma any_presente_de_imperfecto {v : List Char}
    (h : terminaciones_imperfecto.any (fun t => termina v t) = true) :
    terminaciones_presente.any (fun t => termina v t) = true := by
  rw [List.any_eq_true] at h ⊢
  obtain ⟨s, hs, hsv⟩ := h
  obtain ⟨q, hq, hqs⟩ := presente_en_imperfecto s hs
  exact ⟨q, hq, termina_trans hsv hqs⟩

/-- A word passing the future ending check also passes the present ending
check. -/
lemma any_presente_de_futuro {v : List Char}
    (h : terminaciones_futuro.any (fun t => termina v t) = true) :
    terminaciones_presente.any (fun t => termina v t) = true := by
  rw [List.any_eq_true] at h ⊢
  obtain ⟨s, hs, hsv⟩ := h
  obtain ⟨q, hq, hqs⟩ := presente_en_futuro s hs
  exact ⟨q, hq, termina_trans hsv hqs⟩

/- Concrete inputs used by the individual results. -/

/-- Regular imperfect-subjunctive form used as a test input. -/
def palHablara : List Char := "hablara".data

/-- Regular present-subjunctive form used as a test input. -/
def palHable : List Char := "hable".data

/-- Word with no applicable lemmatizer rule, used as a test input. -/
def palXyz : List Char := "xyz".data

/-- Punctuation-only surface form, used as a test input. -/
def palSignos : List Char := "!!!".data

/-- Sentence of the false-positive test of the specification. -/
def textoGato : List Char := "El gato duerme en la casa.".data

/-- Present-indicative form contained in textoGato. -/
def palDuerme : List Char := "duerme".data

/- Claim C1. -/

/-- Claim C1 (amended): a word whose cleaned form ends in one of the
imperfect-subjunctive endings of determinar_tiempo_verbal is classified
as Presente, not as Pretérito imperfecto, because the present endings are
checked first and every imperfect ending itself ends in a present
ending. -/
theorem c1_familia_imperfecta_presente (w : List Char)
    (h : terminaciones_imperfecto.any (fun t => termina (limpiar w) t) =
      true) :
    determinar_tiempo_verbal w = etiquetaPresente := by
  have h1 := any_presente_de_imperfecto h
  simp [determinar_tiempo_verbal, h1]

/-- Witness for c1_familia_imperfecta_presente at the concrete word
hablara. -/
theorem c1_familia_imperfecta_presente_testigo :
    terminaciones_imperfecto.any (fun t => termina (limpiar palHablara) t) =
      true ∧
    determinar_tiempo_verbal palHablara = etiquetaPresente :=
  ⟨by decide, c1_familia_imperfecta_presente palHablara (by decide)⟩

/-- Counterexample to claim C1 as stated: hablara ends in the imperfect
ending ara, yet the tense classification is Presente, not Pretérito
imperfecto. -/
theorem c1_contraejemplo :
    terminaciones_imperfecto.any (fun t => termina (limpiar palHablara) t) =
      true ∧
    determinar_tiempo_verbal palHablara = etiquetaPresente ∧
    etiquetaPresente ≠ etiquetaImperfecto := by decide

/- Claim C2. -/

/-- Claim C2 (amended): a word ending in a or e matches both the
first-person-singular and the third-person-singular ending tuples of
determinar_persona, and the tie is broken in favor of first person
singular, whose branch is checked first. -/
theorem c2_empate_primera_singular (w : List Char)
    (h : (termina (limpiar w) [ 'a' ] || termina (limpiar w) [ 'e' ]) =
      true) :
    determinar_persona w = etiqueta1Sg := by
  have h1 : terminaciones_1sg.any (fun t => termina (limpiar w) t) =
      true := by
    rw [List.any_eq_true]
    rcases Bool.or_eq_true _ _ |>.mp h with ha | he
    · exact ⟨[ 'a' ], by decide, ha⟩
    · exact ⟨[ 'e' ], by decide, he⟩
  simp [determinar_persona, h1]

/-- Witness for c2_empate_primera_singular at the concrete word hable. -/
theorem c2_empate_primera_singular_testigo :
    (termina (limpiar palHable) [ 'a' ] ||
      termina (limpiar palHable) [ 'e' ]) = true ∧
    determinar_persona palHable = etiqueta1Sg :=
  ⟨by decide, c2_empate_primera_singular palHable (by decide)⟩

/-- Counterexample to claim C2 as stated: hable ends in e, so it matches
the first- and third-person-singular patterns, yet determinar_persona
does not return third person singular. -/
theorem c2_contraejemplo :
    (termina (limpiar palHable) [ 'a' ] ||
      termina (limpiar palHable) [ 'e' ]) = true ∧
    determinar_persona palHable ≠ etiqueta3Sg := by decide

/- Claim C10. -/

/-- Claim C10: determinar_tiempo_verbal only ever returns Presente or
Indeterminado; the imperfect and future branches are unreachable because
every imperfect and future ending ends in a present ending and the
present branch is checked first. -/
theorem c10_tiempo_solo_dos_valores (w : List Char) :
    determinar_tiempo_verbal w = etiquetaPresente ∨
    determinar_tiempo_verbal w = etiquetaIndeterminado := by
  by_cases h1 :
    terminaciones_presente.any (fun t => termina (limpiar w) t) = true
  · left
    simp [determinar_tiempo_verbal, h1]
  · have h2 :
        ¬ terminaciones_imperfecto.any (fun t => termina (limpiar w) t) =
          true :=
      fun hc => h1 (any_presente_de_imperfecto hc)
    have h3 :
        ¬ terminaciones_futuro.any (fun t => termina (limpiar w) t) =
          true :=
      fun hc => h1 (any_presente_de_futuro hc)
    right
    simp [determinar_tiempo_verbal, h1, h2, h3]

/- Claim C4. -/

/-- Claim C4 (amended): the lemmatizer is a total function; it returns a
nonempty string whenever the cleaned input is nonempty, and it returns
the cleaned input itself when neither the irregular table nor any ending
rule applies.  On an input whose cleaning removes every character it
returns the empty string. -/
theorem c4_lema_total (w : List Char) :
    (limpiar w ≠ [] → obtener_lema_verbal w ≠ []) ∧
    ((verbos_irregulares_map.find? (fun q => q.1 == limpiar w) = none ∧
        terminaciones_ar.any (fun t => termina (limpiar w) t) = false ∧
        terminaciones_er.any (fun t => termina (limpiar w) t) = false ∧
        terminaciones_ir.any (fun t => termina (limpiar w) t) = false) →
      obtener_lema_verbal w = limpiar w) := by
  constructor
  · intro hne
    simp only [obtener_lema_verbal]
    cases e : verbos_irregulares_map.find? (fun q => q.1 == limpiar w) with
    | some q =>
      have hq : q ∈ verbos_irregulares_map := List.mem_of_find?_eq_some e
      have hval : ∀ q2 ∈ verbos_irregulares_map, q2.2 ≠ [] := by decide
      exact hval q hq
    | none =>
      by_cases h1 :
        terminaciones_ar.any (fun t => termina (limpiar w) t) = true
      · rw [if_pos h1]
        intro hc
        rw [List.append_eq_nil] at hc
        cases hc.2
      · rw [if_neg h1]
        by_cases h2 :
          terminaciones_er.any (fun t => termina (limpiar w) t) = true
        · rw [if_pos h2]
          intro hc
          rw [List.append_eq_nil] at hc
          cases hc.2
        · rw [if_neg h2]
          by_cases h3 :
            terminaciones_ir.any (fun t => termina (limpiar w) t) = true
          · rw [if_pos h3]
            intro hc
            rw [List.append_eq_nil] at hc
            cases hc.2
          · rw [if_neg h3]
            exact hne
  · rintro ⟨e, a1, a2, a3⟩
    simp [obtener_lema_verbal, e, a1, a2, a3]

/-- Witness for c4_lema_total at the concrete word xyz, to which no rule
applies. -/
theorem c4_lema_total_testigo :
    obtener_lema_verbal palXyz ≠ [] ∧
    obtener_lema_verbal palXyz = limpiar palXyz :=
  ⟨(c4_lema_total palXyz).1 (by decide),
   (c4_lema_total palXyz).2 (by decide)⟩

/-- Counterexample to claim C4 as stated: on the punctuation-only input
the lemmatizer returns the empty string, which is neither nonempty nor
the input unchanged. -/
theorem c4_contraejemplo :
    obtener_lema_verbal palSignos = [] ∧ palSignos ≠ [] := by decide

/- Claim C7. -/

/-- Keys of the irregular lemma table whose accent prevents any ending of
determinar_tiempo_verbal from matching. -/
def clavesAcentuadas : List (List Char) :=
  ([ "esté", "estés", "estén", "dé" ] : List String).map String.data

/-- Claim C7 (amended): every key of the irregular lemma table is accepted
by es_verbo_subjuntivo through the irregular-table exact match, and its
lemma is the table's infinitive; the independently derived tense is
Presente for every key except the accent-final forms esté, estés, estén
and dé, which are classified Indeterminado. -/
theorem c7_tabla_irregular (q : List Char × List Char)
    (hq : q ∈ verbos_irregulares_map) :
    limpiar q.1 ∈ verbos_irregulares_subjuntivo ∧
    es_verbo_subjuntivo q.1 = true ∧
    obtener_lema_verbal q.1 = q.2 ∧
    determinar_tiempo_verbal q.1 =
      (if q.1 ∈ clavesAcentuadas then etiquetaIndeterminado
       else etiquetaPresente) := by
  revert q
  decide

/-- Witness for c7_tabla_irregular at the table entry of sea. -/
theorem c7_tabla_irregular_testigo :
    limpiar ("sea".data, "ser".data).1 ∈ verbos_irregulares_subjuntivo ∧
    es_verbo_subjuntivo ("sea".data, "ser".data).1 = true ∧
    obtener_lema_verbal ("sea".data, "ser".data).1 =
      ("sea".data, "ser".data).2 ∧
    determinar_tiempo_verbal ("sea".data, "ser".data).1 =
      (if ("sea".data, "ser".data).1 ∈ clavesAcentuadas then
        etiquetaIndeterminado
       else etiquetaPresente) :=
  c7_tabla_irregular ("sea".data, "ser".data) (by decide)

/-- Counterexample to claim C7 as stated: esté is a key of the irregular
lemma table, but its derived tense is Indeterminado, not Presente. -/
theorem c7_contraejemplo :
    ("esté".data, "estar".data) ∈ verbos_irregulares_map ∧
    determinar_tiempo_verbal ("esté".data, "estar".data).1 =
      etiquetaIndeterminado ∧
    etiquetaIndeterminado ≠ etiquetaPresente := by decide

/- Claim C8. -/

/-- Claim C8: under a fixed configuration the analysis is a pure function
of the input text, so two analyses of the same text return the same
ordered list of occurrence records. -/
theorem c8_determinista (texto : List Char) :
    analizar_texto texto = analizar_texto texto := rfl

/- Claim C9. -/

/-- Whitespace characters are unchanged by lowercasing and are not letters
of the word class of the scanner. -/
lemma espacio_no_letra {c : Char} (h : esEspacio c = true) :
    letraMin (toLowerSp c) = false := by
  have hmem : c ∈ [ ' ', '\t', '\n', '\x0b', '\x0c', '\r' ] :=
    of_decide_eq_true h
  fin_cases hmem <;> decide

/-- Claim C9: on an empty or whitespace-only text the analysis returns the
empty occurrence list, hence a zero summary total. -/
theorem c9_texto_blanco (texto : List Char)
    (h : ∀ c ∈ texto, esEspacio c = true) :
    analizar_texto texto = [] := by
  have hpal : posicionesPalabras (texto.map toLowerSp) = [] := by
    unfold posicionesPalabras
    rw [List.filterMap_eq_nil_iff]
    intro p hp
    have hfalse : esInicioPalabra (texto.map toLowerSp) p = false := by
      unfold esInicioPalabra
      have hlm : letraMinOpt (texto.map toLowerSp)[p]? = false := by
        rw [List.getElem?_map]
        cases e : texto[p]? with
        | none => rfl
        | some c =>
          have hc : esEspacio c = true := h c (List.getElem?_mem e)
          exact espacio_no_letra hc
      rw [hlm]
      rfl
    rw [hfalse]
    rfl
  simp only [analizar_texto, hpal, List.filterMap_nil]

/-- Whitespace-only text used as a test input. -/
def textoBlanco : List Char := "  ".data

/-- Witness for c9_texto_blanco at a two-space text. -/
theorem c9_texto_blanco_testigo : analizar_texto textoBlanco = [] :=
  c9_texto_blanco textoBlanco (by decide)

/- Claim C5. -/

/-- Claim C5 (amended): the text of the false-positive test is not
occurrence-free: the suffix heuristic accepts duerme, en, la and casa,
because the bare present endings e, en and a are members of
subjuntivo_terminaciones, so the analysis returns exactly these four
records. -/
theorem c5_gato_cuatro_ocurrencias :
    analizar_texto textoGato =
      [ ⟨ "duerme".data, "duerer".data, etiquetaPresente, etiqueta1Sg,
          textoGato, 8 ⟩,
        ⟨ "en".data, "ener".data, etiquetaPresente, etiqueta3Pl,
          textoGato, 15 ⟩,
        ⟨ "la".data, "laar".data, etiquetaPresente, etiqueta1Sg,
          textoGato, 18 ⟩,
        ⟨ "casa".data, "caar".data, etiquetaPresente, etiqueta1Sg,
          textoGato, 21 ⟩ ] := by decide

/-- Counterexample to claim C5 as stated: duerme is classified as a
subjunctive verb by the ending heuristic, and the analysis of the test
sentence is not empty. -/
theorem c5_contraejemplo :
    es_verbo_subjuntivo palDuerme = true ∧
    (analizar_texto textoGato).length ≠ 0 := by decide

/- Claim C6. -/

/-- Priority rank of a punctuation mark in the iteration order of the
forward scan. -/
def ordenPunt (c : Char) : Nat :=
  if c == '.' then 0
  else if c == '!' then 1
  else if c == '?' then 2
  else if c == ';' then 3
  else 4

/-- Claim C6 (amended): the forward scan ends the clause at the window
boundary min(len, pos+100) when no mark of puntuaciones occurs in the
window; otherwise it ends just after the nearest occurrence of the first
mark, in the fixed order period, exclamation, question, semicolon, that
occurs in the window, which is not necessarily the nearest mark
overall. -/
theorem c6_fin_clausula (texto : List Char) (pos : Nat) :
    ((∀ pu ∈ puntuaciones, ∀ i, pos ≤ i →
        i < min texto.length (pos + 100) → texto[i]? ≠ some pu) →
      finClausula texto pos = min texto.length (pos + 100)) ∧
    (∀ pu ∈ puntuaciones, ∀ i, pos ≤ i →
      i < min texto.length (pos + 100) → texto[i]? = some pu →
      (∀ j, pos ≤ j → j < i → texto[j]? ≠ some pu) →
      (∀ pu2 ∈ puntuaciones, ordenPunt pu2 < ordenPunt pu →
        ∀ j, pos ≤ j → j < min texto.length (pos + 100) →
          texto[j]? ≠ some pu2) →
      finClausula texto pos = i + 1) := by
  constructor
  · intro h
    have h1 := puntA_eq_none (h '.' (by decide))
    have h2 := puntA_eq_none (h '!' (by decide))
    have h3 := puntA_eq_none (h '?' (by decide))
    have h4 := puntA_eq_none (h ';' (by decide))
    have hfc : finClausula texto pos =
        (match List.findSome? (puntA texto pos
            (min texto.length (pos + 100))) [ '.', '!', '?', ';' ] with
          | some f => f
          | none => min texto.length (pos + 100)) := rfl
    rw [hfc]
    rw [List.findSome?_cons, h1, List.findSome?_cons, h2,
      List.findSome?_cons, h3, List.findSome?_cons, h4,
      List.findSome?_nil]
  · intro pu hpu i hpi hiw hei hmin hprio
    have hpu4 : pu = '.' ∨ pu = '!' ∨ pu = '?' ∨ pu = ';' := by
      simpa [puntuaciones] using hpu
    have hfc : finClausula texto pos =
        (match List.findSome? (puntA texto pos
            (min texto.length (pos + 100))) [ '.', '!', '?', ';' ] with
          | some f => f
          | none => min texto.length (pos + 100)) := rfl
    rw [hfc]
    rcases hpu4 with rfl | rfl | rfl | rfl
    · have hd := puntA_eq_some hpi hiw hei hmin
      rw [List.findSome?_cons, hd]
    · have h1 := puntA_eq_none
        (hprio '.' (by decide) (by decide))
      have hd := puntA_eq_some hpi hiw hei hmin
      rw [List.findSome?_cons, h1, List.findSome?_cons, hd]
    · have h1 := puntA_eq_none
        (hprio '.' (by decide) (by decide))
      have h2 := puntA_eq_none
        (hprio '!' (by decide) (by decide))
      have hd := puntA_eq_some hpi hiw hei hmin
      rw [List.findSome?_cons, h1, List.findSome?_cons, h2,
        List.findSome?_cons, hd]
    · have h1 := puntA_eq_none
        (hprio '.' (by decide) (by decide))
      have h2 := puntA_eq_none
        (hprio '!' (by decide) (by decide))
      have h3 := puntA_eq_none
        (hprio '?' (by decide) (by decide))
      have hd := puntA_eq_some hpi hiw hei hmin
      rw [List.findSome?_cons, h1, List.findSome?_cons, h2,
        List.findSome?_cons, h3, List.findSome?_cons, hd]

/-- Text ending in a period, used as a test input. -/
def textoAbc : List Char := "abc.".data

/-- Text without punctuation, used as a test input. -/
def textoSinPunto : List Char := "abc".data

/-- Witness for c6_fin_clausula: both window cases at concrete texts. -/
theorem c6_fin_clausula_testigo :
    finClausula textoAbc 0 = 3 + 1 ∧
    finClausula textoSinPunto 0 = min textoSinPunto.length (0 + 100) :=
  ⟨(c6_fin_clausula textoAbc 0).2 '.' (by decide) 3 (by decide) (by decide)
      (by decide)
      (by intro j h1 h2; interval_cases j <;> decide)
      (by
        intro pu2 hm ho
        have h4 : pu2 = '.' ∨ pu2 = '!' ∨ pu2 = '?' ∨ pu2 = ';' := by
          simpa [puntuaciones] using hm
        rcases h4 with rfl | rfl | rfl | rfl <;> simp [ordenPunt] at ho),
   (c6_fin_clausula textoSinPunto 0).1
      (by
        intro pu hm i h1 h2
        have he : min textoSinPunto.length (0 + 100) = 3 := by decide
        have h3 : i < 3 := by omega
        have h4 : pu = '.' ∨ pu = '!' ∨ pu = '?' ∨ pu = ';' := by
          simpa [puntuaciones] using hm
        rcases h4 with rfl | rfl | rfl | rfl <;>
          (interval_cases i <;> decide))⟩

/-- Text whose nearest punctuation mark is an exclamation mark followed by
a later period, used as a test input. -/
def textoExcl : List Char := "a! .".data

/-- Counterexample to claim C6 as stated: in this text the nearest
terminal mark after position 0 is the exclamation mark at index 1, yet
the scan ends the clause after the period at index 3, because the period
is consulted first. -/
theorem c6_contraejemplo :
    textoExcl[1]? = some '!' ∧ '!' ∈ puntuaciones ∧
    (∀ j, j < 1 → ∀ pu ∈ puntuaciones, textoExcl[j]? ≠ some pu) ∧
    finClausula textoExcl 0 = 4 ∧ (4 : Nat) ≠ 1 + 1 := by decide

/- Claim C3. -/

/-- Claim C3 (amended): for every occurrence the clause span starts at or
before the recorded verb offset and ends strictly after it, and whenever
the detected verb is at most 100 characters long the span also covers the
verb's characters completely.  A longer verb overflows the bounded
100-character forward window, so the full-containment part needs that
bound. -/
theorem c3_clausula_contiene_verbo (texto : List Char) (r : Ocurrencia)
    (hr : r ∈ analizar_texto texto) :
    (clausulaSpan texto r.posicion).1 ≤ r.posicion ∧
    r.posicion < (clausulaSpan texto r.posicion).2 ∧
    (r.verbo.length ≤ 100 →
      r.posicion + r.verbo.length ≤ (clausulaSpan texto r.posicion).2) := by
  obtain ⟨w, p, hmem, _, hverbo, hpos⟩ := mem_analizar hr
  subst hpos
  obtain ⟨hw, hplen, hini⟩ := mem_posicionesPalabras hmem
  obtain ⟨hne, hlen, hchars⟩ := palabra_letras hini
  rw [← hw] at hne hlen hchars
  have hmaplen : (texto.map toLowerSp).length = texto.length :=
    List.length_map _ _
  rw [hmaplen] at hplen hlen
  have hwpos : 0 < w.length := List.length_pos.mpr hne
  have hL : r.verbo.length = w.length := by
    rw [hverbo, List.length_take, List.length_drop]
    omega
  have hini2 : inicioClausula texto r.posicion ≤ r.posicion := by
    have hic : inicioClausula texto r.posicion =
        (match conectores_subjuntivo.findSome?
            (fun con =>
              rfindSub texto con (r.posicion - 100) r.posicion) with
          | some idx => idx
          | none => r.posicion - 100) := rfl
    rw [hic]
    cases e : conectores_subjuntivo.findSome?
        (fun con => rfindSub texto con (r.posicion - 100) r.posicion) with
    | none => exact Nat.sub_le _ _
    | some idx =>
      obtain ⟨con, hcon, hval⟩ := List.exists_of_findSome?_eq_some e
      obtain ⟨hp, _⟩ := buscarUltimo_some hval
      rw [Bool.and_eq_true, Bool.and_eq_true] at hp
      have h2 : idx + con.length ≤ r.posicion := of_decide_eq_true hp.1.2
      show idx ≤ r.posicion
      omega
  have hfin : r.posicion < finClausula texto r.posicion ∧
      (r.verbo.length ≤ 100 →
        r.posicion + r.verbo.length ≤ finClausula texto r.posicion) := by
    have hfc : finClausula texto r.posicion =
        (match List.findSome?
            (puntA texto r.posicion (min texto.length (r.posicion + 100)))
            puntuaciones with
          | some f => f
          | none => min texto.length (r.posicion + 100)) := rfl
    rw [hfc]
    cases e : List.findSome?
        (puntA texto r.posicion (min texto.length (r.posicion + 100)))
        puntuaciones with
    | none =>
      constructor
      · show r.posicion < min texto.length (r.posicion + 100)
        omega
      · intro h100
        show r.posicion + r.verbo.length ≤
          min texto.length (r.posicion + 100)
        rw [hL] at h100 ⊢
        omega
    | some f =>
      obtain ⟨pu, hpu, hval⟩ := List.exists_of_findSome?_eq_some e
      cases e2 : findCharFrom texto pu r.posicion with
      | none =>
        unfold puntA at hval
        rw [e2] at hval
        cases hval
      | some idx =>
        unfold puntA at hval
        rw [e2] at hval
        have hval2 :
            (if idx < min texto.length (r.posicion + 100) then
              some (idx + 1) else none) = some f := hval
        by_cases hlt : idx < min texto.length (r.posicion + 100)
        · rw [if_pos hlt] at hval2
          injection hval2 with hf
          obtain ⟨hs1, _, hs3, _⟩ := findCharFrom_some e2
          have hge : r.posicion + w.length ≤ idx := by
            by_contra hcon2
            push_neg at hcon2
            have hk := hchars (idx - r.posicion) (by omega)
            rw [show r.posicion + (idx - r.posicion) = idx from by omega]
              at hk
            rw [List.getElem?_map, hs3] at hk
            have hpu4 : pu = '.' ∨ pu = '!' ∨ pu = '?' ∨ pu = ';' := by
              simpa [puntuaciones] using hpu
            rcases hpu4 with rfl | rfl | rfl | rfl <;>
              exact absurd hk (by decide)
          constructor
          · show r.posicion < f
            omega
          · intro _
            show r.posicion + r.verbo.length ≤ f
            rw [hL]
            omega
        · rw [if_neg hlt] at hval2
          cases hval2
  exact ⟨hini2, hfin.1, hfin.2⟩

/-- Short sentence with one detected verb, used as a test input. -/
def textoComa : List Char := "coma.".data

/-- The single occurrence record the analysis produces on textoComa. -/
def ocComa : Ocurrencia :=
  ⟨ "coma".data, "coar".data, etiquetaPresente, etiqueta1Sg,
    "coma.".data, 0 ⟩

/-- Witness for c3_clausula_contiene_verbo at the concrete occurrence of
textoComa. -/
theorem c3_clausula_contiene_verbo_testigo :
    (clausulaSpan textoComa ocComa.posicion).1 ≤ ocComa.posicion ∧
    ocComa.posicion + ocComa.verbo.length ≤
      (clausulaSpan textoComa ocComa.posicion).2 :=
  ⟨(c3_clausula_contiene_verbo textoComa ocComa (by decide)).1,
   (c3_clausula_contiene_verbo textoComa ocComa (by decide)).2.2
     (by decide)⟩

/-- Text consisting of one 101-letter word, used as a test input. -/
def textoLargo : List Char := List.replicate 101 'a'

/-- Counterexample to claim C3 as stated: on a 101-letter detected verb
the clause span is [0, 100), which contains the verb's offset but not all
of the verb's characters, since the forward window is capped at 100
characters. -/
theorem c3_contraejemplo :
    analizar_texto textoLargo =
      [ ⟨ textoLargo, List.replicate 100 'a' ++ [ 'r' ], etiquetaPresente,
          etiqueta1Sg, List.replicate 100 'a', 0 ⟩ ] ∧
    clausulaSpan textoLargo 0 = (0, 100) ∧
    ¬ (0 + (textoLargo.length) ≤ 100) := by decide
